import Mathlib

/-!
Verification development for the TrueWipe data-destruction core.

The JavaScript source is embedded shallowly: partition descriptors become a
structure, the detector / overwrite engine / verifier become pure Lean
functions over explicit inputs (device contents are functions from byte
offset to byte value, randomness and per-device I/O outcomes are passed in
as parameters), and JavaScript exceptions become `Except` results.
Floating-point arithmetic in the source is modelled over `ℚ`.
-/

namespace TrueWipe

/-- A partition descriptor as produced by `detectPartitions` in
`partition_detector.js`: device path, mount point and reported filesystem. -/
structure Partition where
  device : String
  mountpoint : String
  filesystem : String
deriving DecidableEq

/-- Host platform as reported by `os.platform()`. -/
inductive Platform where
  | win32
  | linux
  | darwin
  | other
deriving DecidableEq

/-- JavaScript `String.prototype.includes`: substring containment. -/
def jsIncludes (s pat : String) : Bool :=
  decide (pat.toList <:+: s.toList)

/-- The `osSignatures` table of `OSPartitionDetector`, in insertion order;
`Object.entries` iterates string keys in this order. -/
def osSignatures : List (String × List Nat) :=
  [("ntfs", [0xEB, 0x52, 0x90, 0x4E, 0x54, 0x46, 0x53]),
   ("fat32", [0xEB, 0x58, 0x90, 0x4D, 0x53, 0x44, 0x4F, 0x53, 0x35, 0x2E, 0x30]),
   ("ext4", [0x53, 0xEF]),
   ("ext3", [0x53, 0xEF]),
   ("ext2", [0x53, 0xEF]),
   ("btrfs", [0x5F, 0x42, 0x48, 0x72, 0x53, 0x46, 0x48, 0x21]),
   ("xfs", [0x58, 0x46, 0x53, 0x42]),
   ("hfs+", [0x48, 0x2B, 0x00, 0x04, 0x48, 0x46, 0x53, 0x00]),
   ("apfs", [0x41, 0x50, 0x46, 0x53]),
   ("zfs", [0x5A, 0x46, 0x53, 0x00]),
   ("ufs", [0x54, 0x19, 0x01, 0x00])]

/-- The per-entry check of `identifyFilesystem`: the buffer is at least as
long as the filesystem signature and agrees with it bytewise on that prefix. -/
def matchesSignature (signature fsSignature : List Nat) : Bool :=
  decide (fsSignature.length ≤ signature.length) && fsSignature.isPrefixOf signature

/-- The lookup loop of `identifyFilesystem`: first table entry whose
signature matches wins; `"unknown"` if none matches. -/
def lookupSignature (table : List (String × List Nat)) (signature : List Nat) : String :=
  match table with
  | [] => "unknown"
  | (fsType, fsSignature) :: rest =>
    if matchesSignature signature fsSignature then fsType
    else lookupSignature rest signature

/-- Lookup `identifyFilesystem` from `partition_detector.js`. -/
def identifyFilesystem (signature : List Nat) : String :=
  lookupSignature osSignatures signature

/-- The `readSignature` function of `partition_detector.js`. The raw device
read outcome is the argument; on a read error the catch branch returns a
zero-filled 1024-byte buffer instead of propagating the failure. -/
def readSignature (raw : Except Unit (List Nat)) : List Nat :=
  match raw with
  | .ok bytes => bytes
  | .error _ => List.replicate 1024 0

/-- The `isOSPartition` method: mount-point checks per platform; the
signature inspection at the end computes a filesystem name but its result is
discarded and the function falls through to `false`. -/
def isOSPartition (platform : Platform) (sigRead : Except Unit (List Nat))
    (p : Partition) : Bool :=
  if platform = Platform.win32 ∧ p.mountpoint = "C:\\" then true
  else if platform = Platform.linux ∧
      (p.mountpoint = "/" ∨ p.mountpoint = "/boot" ∨ p.mountpoint = "/system") then true
  else if platform = Platform.darwin ∧
      (jsIncludes p.mountpoint "/System" = true ∨
       jsIncludes p.mountpoint "/Applications" = true) then true
  else
    let _filesystem := identifyFilesystem (readSignature sigRead)
    false

/-- Method `identifyOSPartitions`: collects the partitions classified as OS
partitions.  `sigRead` gives each device's raw signature-read outcome. -/
def identifyOSPartitions (platform : Platform)
    (sigRead : String → Except Unit (List Nat)) (partitions : List Partition) :
    List Partition :=
  partitions.filter fun p => isOSPartition platform (sigRead p.device) p

/-- Method `isSafeToWipe` from `partition_detector.js`: the loop returns `false` as
soon as a protected partition's device equals the device path. -/
def isSafeToWipe (devicePath : String) (osPartitions : List Partition) : Bool :=
  match osPartitions with
  | [] => true
  | osPartition :: rest =>
    if osPartition.device = devicePath then false
    else isSafeToWipe devicePath rest

namespace SecureOverwriteEngine

/-- One pass specification as the engine's overwrite methods build them: a
human-readable name and either a fixed pattern buffer (filled into the write
buffer) or `none` for fresh cryptographically random data regenerated while
streaming the pass. -/
structure PassSpec where
  name : String
  pattern : Option (List Nat)
deriving DecidableEq

/-- Helper `generatePatternBuffer(size, ...patternBytes)`: a buffer whose byte at
index `i` is `patternBytes[i % patternBytes.length]`. -/
def generatePatternBuffer (size : Nat) (patternBytes : List Nat) : List Nat :=
  (List.range size).map fun i => patternBytes.getD (i % patternBytes.length) 0

/-- The single streaming random pass of `onePassOverwrite` (the method has no
pass array; it writes `crypto.randomFillSync` chunks in one sweep). -/
def onePassSpecs : List PassSpec :=
  [{ name := "Random Data", pattern := none }]

/-- The `passes` array of `threePassOverwrite`. -/
def threePassSpecs : List PassSpec :=
  [{ name := "Zero Fill", pattern := some (List.replicate 1024 0x00) },
   { name := "One Fill", pattern := some (List.replicate 1024 0xFF) },
   { name := "Random Data", pattern := none }]

/-- The `passes` array of `sevenPassOverwrite`. -/
def sevenPassSpecs : List PassSpec :=
  [{ name := "Zero Fill", pattern := some (List.replicate 1024 0x00) },
   { name := "One Fill", pattern := some (List.replicate 1024 0xFF) },
   { name := "Pattern 1", pattern := some (generatePatternBuffer 1024 [0x92, 0x49, 0x24]) },
   { name := "Pattern 2", pattern := some (generatePatternBuffer 1024 [0x49, 0x24, 0x92]) },
   { name := "Pattern 3", pattern := some (generatePatternBuffer 1024 [0x24, 0x92, 0x49]) },
   { name := "Random Data 1", pattern := none },
   { name := "Random Data 2", pattern := none }]

/-- The `passes` array of `schneierOverwrite`. -/
def schneierSpecs : List PassSpec :=
  [{ name := "Zero Fill", pattern := some (List.replicate 1024 0x00) },
   { name := "One Fill", pattern := some (List.replicate 1024 0xFF) },
   { name := "Random Data 1", pattern := none },
   { name := "Random Data 2", pattern := none },
   { name := "Random Data 3", pattern := none },
   { name := "Random Data 4", pattern := none },
   { name := "Random Data 5", pattern := none }]

/-- The `patterns` array of `gutmannOverwrite`: 35 pattern buffers, each a
fresh `generateRandomBuffer(1024)` sample.  `rnd i` is the buffer returned by
the `i`-th call to the cryptographic generator during construction. -/
def gutmannSpecs (rnd : Nat → List Nat) : List PassSpec :=
  (List.range 35).map fun i =>
    { name := "Gutmann Pattern " ++ toString (i + 1), pattern := some (rnd i) }

/-- Pass count of `pfitznerOverwrite`: `Math.floor(Math.random() * 41) + 10`,
with the `Math.random()` draw `r ∈ [0, 1)` passed in explicitly. -/
def pfitznerPassCount (r : ℚ) : ℤ :=
  ⌊r * 41⌋ + 10

/-- The `passes` array of `pfitznerOverwrite`: `passCount` fresh random
pattern buffers. -/
def pfitznerSpecs (rnd : Nat → List Nat) (r : ℚ) : List PassSpec :=
  (List.range (pfitznerPassCount r).toNat).map fun i =>
    { name := "Pfitzner Random Pass " ++ toString (i + 1), pattern := some (rnd i) }

/-- The own keys of the engine's `methods` table, in insertion order. -/
def knownMethods : List String :=
  ["1-pass", "3-pass", "7-pass", "gutmann", "schneier", "pfitzner"]

/-- Own property names of `Object.prototype`, inherited by the `methods`
object literal.  A lookup `this.methods[name]` for any of these yields the
inherited member — a function, or the prototype object for the `__proto__`
accessor — all of which are truthy, so the `!this.methods[method]` guard
does not fire for them. -/
def objectPrototypeProps : List String :=
  ["constructor", "hasOwnProperty", "isPrototypeOf", "propertyIsEnumerable",
   "toLocaleString", "toString", "valueOf", "__defineGetter__",
   "__defineSetter__", "__lookupGetter__", "__lookupSetter__", "__proto__"]

/-- Truthiness of the JS lookup `this.methods[method]`: the six own keys hit
table entries and every own property name of `Object.prototype` hits a
truthy inherited member; any other name yields `undefined` (falsy). -/
def methodsLookupTruthy (method : String) : Bool :=
  decide (method ∈ knownMethods) || decide (method ∈ objectPrototypeProps)

/-- The own entries of the `methods` table: the pass sequence the named
overwrite method runs, or `none` when the name is not an own key. -/
def methodSpecs (rnd : Nat → List Nat) (r : ℚ) (method : String) :
    Option (List PassSpec) :=
  if method = "1-pass" then some onePassSpecs
  else if method = "3-pass" then some threePassSpecs
  else if method = "7-pass" then some sevenPassSpecs
  else if method = "gutmann" then some (gutmannSpecs rnd)
  else if method = "schneier" then some schneierSpecs
  else if method = "pfitzner" then some (pfitznerSpecs rnd r)
  else none

/-- The per-pass while loop shared by all overwrite methods: starting from
`written` bytes already written, emit chunk sizes of
`Math.min(bufferSize, size - written)` with a 1 MiB buffer until `size`
bytes are covered. -/
def writeChunks (size written : Nat) : List Nat :=
  if _h : written < size then
    let toWrite := min 1048576 (size - written)
    toWrite :: writeChunks size (written + toWrite)
  else
    []
termination_by size - written
decreasing_by
  omega

/-- Outcome of a completed engine run: passes completed and total bytes
written across all passes. -/
structure EngineRun where
  passesCompleted : Nat
  bytesWritten : Nat
deriving DecidableEq

/-- Method `SecureOverwriteEngine.execute`: throws the unknown-method error
only when the lookup `this.methods[method]` is falsy (neither an own key nor
an inherited `Object.prototype` member); then rejects an empty (falsy)
device path; then calls the looked-up value.  An own key runs every pass of
the selected method, each pass's while loop writing `size` bytes in chunks.
An inherited function member (toString, hasOwnProperty, …) returns without
running any pass or writing any byte; the `__proto__` accessor yields a
non-function, so the `.call` on it throws a TypeError.  No other
precondition is checked before writing. -/
def execute (rnd : Nat → List Nat) (r : ℚ) (method devicePath : String)
    (size : Nat) : Except String EngineRun :=
  if methodsLookupTruthy method = false then
    .error ("Unknown overwrite method: " ++ method)
  else if devicePath = "" then
    .error "Device path is required"
  else
    match methodSpecs rnd r method with
    | some passes =>
      .ok { passesCompleted := passes.length,
            bytesWritten := passes.foldl (fun acc _ => acc + (writeChunks size 0).sum) 0 }
    | none =>
      if method = "__proto__" then
        .error "TypeError: this.methods[method].call is not a function"
      else
        .ok { passesCompleted := 0, bytesWritten := 0 }

end SecureOverwriteEngine

namespace DataVerifier

/-- Result record of a verification method: the `success` flag and the
`confidence` value (fraction of sampled chunks judged clean). -/
structure VerifyOutcome where
  success : Bool
  confidence : ℚ
deriving DecidableEq

/-- Predicate `isSectorClean` from the verifier: counts zero bytes among the first
`min(buffer.length, 1024)` bytes and declares the sector clean when the zero
fraction is above `0.9` or below `0.1`. -/
def isSectorClean (buffer : Nat → Nat) (bufferLen : Nat) : Bool :=
  let window := min bufferLen 1024
  let zeroCount := (List.range window).countP fun i => buffer i == 0
  let zeroFraction : ℚ := (zeroCount : ℚ) / (window : ℚ)
  zeroFraction > 9/10 || zeroFraction < 1/10

/-- Model of `thoroughVerification`: the device content is `file` (byte value at each
offset) of length `size`.  Up to 100 one-MiB chunks are read at positions
spread across the device into a single reused buffer (initially
zero-filled); a read past end-of-file replaces only the bytes that exist,
exactly as `fs.readSync` does.  The result is the fraction of chunks that
`isSectorClean` accepts, with success above `0.95`.  `verifyStep` is one
iteration of the scan loop: compute the sample position, read into the
reused buffer (a read past end-of-file replaces only the bytes that exist,
as `fs.readSync` does), and count the chunk when `isSectorClean` accepts
it. -/
def verifyStep (file : Nat → Nat) (size chunksToCheck : Nat)
    (st : (Nat → Nat) × Nat) (i : Nat) : (Nat → Nat) × Nat :=
  let chunkSize : Nat := 1048576
  let position : Nat :=
    (⌊((i : ℚ) / (chunksToCheck : ℚ)) * ((size : ℚ) - (chunkSize : ℚ))⌋).toNat
  let bytesRead : Nat := min chunkSize (size - position)
  let buffer : Nat → Nat := fun j => if j < bytesRead then file (position + j) else st.1 j
  (buffer, if isSectorClean buffer chunkSize then st.2 + 1 else st.2)

/-- The `thoroughVerification` scan: up to `min 100 ⌈size / 1 MiB⌉` chunks
are sampled with `verifyStep`; the confidence is the fraction of clean
chunks and success requires it to exceed `0.95`. -/
def thoroughVerification (file : Nat → Nat) (size : Nat) : VerifyOutcome :=
  let chunkSize : Nat := 1048576
  let chunksToCheck : Nat := min 100 ((size + chunkSize - 1) / chunkSize)
  let scanned := (List.range chunksToCheck).foldl (verifyStep file size chunksToCheck) (fun _ => 0, 0)
  let confidence : ℚ := (scanned.2 : ℚ) / (chunksToCheck : ℚ)
  { success := confidence > 95/100, confidence := confidence }

end DataVerifier

/-- Result record of `executeWipe` (success path). -/
structure WipeSummary where
  partitionsWiped : Nat
  osPartitionsProtected : Nat
deriving DecidableEq

/-- Result record of `executeAdvancedWipe` (success path), including the
fields of the generated compliance report that the claims examine. -/
structure AdvancedSummary where
  partitionsWiped : Nat
  osPartitionsProtected : Nat
  confidence : ℚ
  reportPartitions : List String
  reportStandards : List String
deriving DecidableEq

/-- Map `getConfidenceLevel` from `truewipe.js` (default `0.95`). -/
def getConfidenceLevel (verificationLevel : String) : ℚ :=
  if verificationLevel = "quick" then 95/100
  else if verificationLevel = "thorough" then 99/100
  else if verificationLevel = "forensic" then 999/1000
  else if verificationLevel = "military" then 9999/10000
  else if verificationLevel = "quantum" then 99999/100000
  else 95/100

/-- Function `getComplianceStandards` from `truewipe.js`: note that the DoD entry is
gated on `method.includes('7-pass')`, a substring test, not equality. -/
def getComplianceStandards (method verificationLevel : String) : List String :=
  let standards := ["NIST SP 800-88"]
  let standards :=
    if jsIncludes method "7-pass" || (method == "gutmann") || (method == "schneier")
    then standards ++ ["DoD 5220.22-M"] else standards
  if (verificationLevel == "military") || (verificationLevel == "quantum")
  then standards ++ ["NSA CSS.5"] else standards

/-- The partitions `executeWipe` proceeds to wipe: every detected partition
whose device does not match any identified OS partition's device. -/
def wipeFilter (platform : Platform) (sigRead : String → Except Unit (List Nat))
    (partitions : List Partition) : List Partition :=
  let osPartitions := identifyOSPartitions platform sigRead partitions
  partitions.filter fun p => !(osPartitions.any fun osPart => osPart.device == p.device)

/-- The wipe loop of `executeWipe`: partitions failing `isSafeToWipe` are
skipped with `continue`; otherwise the overwrite engine is invoked on the
partition's device.  `engineErr d` is the outcome of the engine call on
device `d` (`none` for success, `some e` when it throws `e`).  Returns the
devices the engine was invoked on and the first error, which aborts the
loop. -/
def wipeLoop (engineErr : String → Option String) (osPartitions : List Partition) :
    List Partition → List String × Option String
  | [] => ([], none)
  | p :: rest =>
    if isSafeToWipe p.device osPartitions = false then
      wipeLoop engineErr osPartitions rest
    else
      match engineErr p.device with
      | some e => ([p.device], some e)
      | none =>
        let tail := wipeLoop engineErr osPartitions rest
        (p.device :: tail.1, tail.2)

/-- The verification loop of `executeWipe`: each wiped partition is verified
in turn; the first failing verification throws, aborting the run.
`verifyOk d` is the `success` flag the verifier returns for device `d`. -/
def verifyLoop (verifyOk : String → Bool) : List Partition → Option String
  | [] => none
  | p :: rest =>
    if verifyOk p.device then verifyLoop verifyOk rest
    else some ("Verification failed for " ++ p.device)

/-- The error message thrown when no partition is left to wipe. -/
def noWipeablesMsg : String :=
  "No partitions available for wiping (all protected as OS partitions)"

/-- Orchestration `TrueWipe.executeWipe`: detect partitions (passed in), identify OS
partitions, filter them out, throw if nothing is wipeable, wipe each
remaining partition, verify each, and return the summary counts.  The first
component is the list of devices on which the overwrite engine was invoked;
the second is the run's outcome (`.error` models a thrown exception). -/
def executeWipe (platform : Platform) (sigRead : String → Except Unit (List Nat))
    (engineErr : String → Option String) (verifyOk : String → Bool)
    (partitions : List Partition) : List String × Except String WipeSummary :=
  let osPartitions := identifyOSPartitions platform sigRead partitions
  let wipePartitions := wipeFilter platform sigRead partitions
  if wipePartitions.length = 0 then ([], .error noWipeablesMsg)
  else
    match wipeLoop engineErr osPartitions wipePartitions with
    | (tr, some e) => (tr, .error e)
    | (tr, none) =>
      match verifyLoop verifyOk wipePartitions with
      | some msg => (tr, .error msg)
      | none => (tr, .ok { partitionsWiped := wipePartitions.length,
                           osPartitionsProtected := osPartitions.length })

/-- Orchestration `TrueWipe.executeAdvancedWipe`: same gating, wipe and verification
structure as `executeWipe` (the added hardware analysis and fingerprinting
only log), plus the generated compliance report fields in the summary. -/
def executeAdvancedWipe (method verificationLevel : String) (platform : Platform)
    (sigRead : String → Except Unit (List Nat)) (engineErr : String → Option String)
    (verifyOk : String → Bool) (partitions : List Partition) :
    List String × Except String AdvancedSummary :=
  let osPartitions := identifyOSPartitions platform sigRead partitions
  let wipePartitions := wipeFilter platform sigRead partitions
  if wipePartitions.length = 0 then ([], .error noWipeablesMsg)
  else
    match wipeLoop engineErr osPartitions wipePartitions with
    | (tr, some e) => (tr, .error e)
    | (tr, none) =>
      match verifyLoop verifyOk wipePartitions with
      | some msg => (tr, .error msg)
      | none => (tr, .ok { partitionsWiped := wipePartitions.length,
                           osPartitionsProtected := osPartitions.length,
                           confidence := getConfidenceLevel verificationLevel,
                           reportPartitions := wipePartitions.map Partition.device,
                           reportStandards := getComplianceStandards method verificationLevel })

/-- Fill-mode shape of one pass as the specification's pass table states it:
a constant byte, a repeating byte pattern, or a cryptographically random
fill. -/
inductive FillMode where
  | constantFill (b : Nat)
  | repeatingFill (patternBytes : List Nat)
  | cryptoRandom
deriving DecidableEq

/-- Modelled from the spec table: the claimed 1-pass shape. -/
def tableOnePass : List FillMode := [.cryptoRandom]

/-- Modelled from the spec table: the claimed 3-pass shape. -/
def tableThreePass : List FillMode :=
  [.constantFill 0x00, .constantFill 0xFF, .cryptoRandom]

/-- Modelled from the spec table: the claimed 7-pass shape. -/
def tableSevenPass : List FillMode :=
  [.constantFill 0x00, .constantFill 0xFF,
   .repeatingFill [0x92, 0x49, 0x24], .repeatingFill [0x49, 0x24, 0x92],
   .repeatingFill [0x24, 0x92, 0x49], .cryptoRandom, .cryptoRandom]

/-- Modelled from the spec table: the claimed schneier shape. -/
def tableSchneier : List FillMode :=
  [.constantFill 0x00, .constantFill 0xFF,
   .cryptoRandom, .cryptoRandom, .cryptoRandom, .cryptoRandom, .cryptoRandom]

/-- When a source-level pass buffer realizes a claimed fill mode: a constant
fill is a 1024-byte buffer of that byte, a repeating fill is the
`generatePatternBuffer` of that byte sequence, and a cryptographically
random fill is a pass with no fixed pattern (fresh random data streamed
while writing). -/
def realizesFill : FillMode → Option (List Nat) → Prop
  | .constantFill b, some buf => buf = List.replicate 1024 b
  | .repeatingFill patternBytes, some buf =>
      buf = SecureOverwriteEngine.generatePatternBuffer 1024 patternBytes
  | .cryptoRandom, none => True
  | _, _ => False

/-- A device file consisting entirely of `0x00` bytes. -/
def zeroFile : Nat → Nat := fun _ => 0

/-- A device file of monotonically increasing byte values
`0, 1, 2, …, 255, 0, 1, …`. -/
def increasingFile : Nat → Nat := fun i => i % 256

/-- Concrete random source for witnesses: the i-th draw is the one-element
buffer `[i]` (injective across draws). -/
def wRnd : Nat → List Nat := fun i => [i]

/-- Concrete OS partition used in witnesses: mounted at the Linux root. -/
def wOSPartition : Partition :=
  { device := "/dev/sda1", mountpoint := "/", filesystem := "ext4" }

/-- Concrete data partition used in witnesses: not mounted anywhere. -/
def wDataPartition : Partition :=
  { device := "/dev/sdb1", mountpoint := "Not mounted", filesystem := "ext4" }

/-- Second concrete data partition used in witnesses. -/
def wSndPartition : Partition :=
  { device := "/dev/sdc1", mountpoint := "Not mounted", filesystem := "vfat" }

/-- Concrete signature-read environment for witnesses: every device read
succeeds with an empty buffer. -/
def wSigRead : String → Except Unit (List Nat) := fun _ => .ok []

/-- Concrete engine environment for witnesses: every engine call succeeds. -/
def wEngineOk : String → Option String := fun _ => none

/-- Concrete engine environment in which the call on `/dev/sdb1` throws
`"boom"` and every other call succeeds. -/
def wEngineFailFirst : String → Option String :=
  fun d => if d = "/dev/sdb1" then some "boom" else none

/-- Concrete verifier environment for witnesses: every verification
succeeds. -/
def wVerifyOk : String → Bool := fun _ => true

/-- Concrete verifier environment in which verification of `/dev/sdb1`
fails and every other verification succeeds. -/
def wVerifyFailFirst : String → Bool :=
  fun d => if d = "/dev/sdb1" then false else true

/-- Helper: the `isSafeToWipe` loop answers `false` exactly when some
protected partition's device equals the queried device path. -/
theorem isSafeToWipe_eq_false_iff (devicePath : String) (osPartitions : List Partition) :
    isSafeToWipe devicePath osPartitions = false ↔
      ∃ o ∈ osPartitions, o.device = devicePath := by
  induction osPartitions with
  | nil => simp [isSafeToWipe]
  | cons o rest ih =>
    by_cases h : o.device = devicePath
    · simp [isSafeToWipe, h]
    · simp [isSafeToWipe, h, ih]

/-- C3: for every device path and every set of protected partitions,
`isSafeToWipe` returns `false` if and only if some element of the set has
that device path; in particular it returns `true` for every path when the
set is empty. -/
theorem isSafeToWipe_false_iff_member :
    (∀ (devicePath : String) (osPartitions : List Partition),
      isSafeToWipe devicePath osPartitions = false ↔
        ∃ o ∈ osPartitions, o.device = devicePath) ∧
    (∀ devicePath : String, isSafeToWipe devicePath [] = true) :=
  ⟨isSafeToWipe_eq_false_iff, fun _ => rfl⟩

/-- C10: because the ext4, ext3 and ext2 table entries share the signature
`0x53 0xEF` and the table is scanned in insertion order, every signature
buffer beginning with `0x53 0xEF` is classified `"ext4"`, and
`identifyFilesystem` can never return `"ext3"` or `"ext2"`. -/
theorem identifyFilesystem_ext4_shadows :
    (∀ rest : List Nat, identifyFilesystem (0x53 :: 0xEF :: rest) = "ext4") ∧
    (∀ signature : List Nat,
      identifyFilesystem signature ≠ "ext3" ∧ identifyFilesystem signature ≠ "ext2") := by
  constructor
  · intro rest
    simp [identifyFilesystem, osSignatures, lookupSignature, matchesSignature,
      List.isPrefixOf]
  · intro signature
    simp only [identifyFilesystem, osSignatures, lookupSignature]
    split_ifs <;> simp_all

/-- C2 (code bug): at the failing input — a Linux partition mounted nowhere
whose signature read throws an I/O error — the classifier answers `false`,
leaving the unreadable unit wipeable, instead of the fail-closed `true` the
specification requires: the catch branch of `readSignature` substitutes a
zero-filled buffer and `isOSPartition` discards the signature result
entirely. -/
theorem isOSPartition_false_on_read_error :
    isOSPartition Platform.linux (Except.error ())
      { device := "/dev/sdb1", mountpoint := "Not mounted", filesystem := "unknown" } =
      false := by
  rfl

/-- Helper: each pass's while loop writes exactly the bytes remaining to the
device's capacity. -/
theorem writeChunks_sum (size : Nat) : ∀ written : Nat,
    (SecureOverwriteEngine.writeChunks size written).sum = size - written := by
  intro written
  generalize hk : size - written = k
  induction k using Nat.strong_induction_on generalizing written with
  | _ k ih =>
    rw [SecureOverwriteEngine.writeChunks]
    split
    · next h =>
      have h1 : 1 ≤ min 1048576 (size - written) := by omega
      simp only [List.sum_cons]
      rw [ih (size - (written + min 1048576 (size - written))) (by omega) _ rfl]
      omega
    · next h =>
      simp only [List.sum_nil]
      omega

/-- C8 (code bug): the engine's `execute` performs no `isSafeToWipe`
re-check before opening the unit for writing — it validates only the method
name and a non-empty device path.  At the failing input, `/dev/sda1` lies in
the protected set (`isSafeToWipe` answers `false`), yet passing it directly
to `execute` with method `1-pass` completes one pass and writes the unit's
full 2048-byte capacity. -/
theorem execute_writes_protected_unit :
    isSafeToWipe "/dev/sda1"
        [{ device := "/dev/sda1", mountpoint := "/", filesystem := "ext4" }] = false ∧
    SecureOverwriteEngine.execute (fun _ => []) 0 "1-pass" "/dev/sda1" 2048 =
      .ok { passesCompleted := 1, bytesWritten := 2048 } := by
  refine ⟨rfl, ?_⟩
  have h : (SecureOverwriteEngine.writeChunks 2048 0).sum = 2048 := writeChunks_sum 2048 0
  simp [SecureOverwriteEngine.execute, SecureOverwriteEngine.methodsLookupTruthy,
    SecureOverwriteEngine.knownMethods, SecureOverwriteEngine.objectPrototypeProps,
    SecureOverwriteEngine.methodSpecs, SecureOverwriteEngine.onePassSpecs, h]

namespace SecureOverwriteEngine

/-- C4 (amended): the engine's pass sequences have exactly the claimed table
shape: 1-pass is one cryptographically random pass; 3-pass is constant 0x00,
constant 0xFF, random; 7-pass is constant 0x00, constant 0xFF, the three
repeating patterns 92 49 24 / 49 24 92 / 24 92 49, then two random passes;
schneier is constant 0x00, constant 0xFF, then five random passes; gutmann
is exactly 35 fills, each a fresh random draw and pairwise distinct whenever
the draws are distinct; pfitzner has between 10 and 50 passes, all fresh
random draws.  A method name that is neither an own key of the methods
table nor an own property name of `Object.prototype` makes `execute` fail
with the unknown-method error before any write; an inherited function-valued
property name such as `toString` passes the falsy guard instead and returns
with no pass run and no byte written. -/
theorem passSequences_match_table (rnd : Nat → List Nat)
    (hrnd : Function.Injective rnd) (r : ℚ) (hr0 : 0 ≤ r) (hr1 : r < 1)
    (m devicePath : String) (hm : m ∉ knownMethods)
    (hm2 : m ∉ objectPrototypeProps) (size : Nat) :
    List.Forall₂ realizesFill tableOnePass (onePassSpecs.map PassSpec.pattern) ∧
    List.Forall₂ realizesFill tableThreePass (threePassSpecs.map PassSpec.pattern) ∧
    List.Forall₂ realizesFill tableSevenPass (sevenPassSpecs.map PassSpec.pattern) ∧
    List.Forall₂ realizesFill tableSchneier (schneierSpecs.map PassSpec.pattern) ∧
    (gutmannSpecs rnd).length = 35 ∧
    (∀ p ∈ gutmannSpecs rnd, ∃ i < 35, p.pattern = some (rnd i)) ∧
    ((gutmannSpecs rnd).map PassSpec.pattern).Nodup ∧
    10 ≤ (pfitznerSpecs rnd r).length ∧ (pfitznerSpecs rnd r).length ≤ 50 ∧
    (∀ p ∈ pfitznerSpecs rnd r, ∃ i, p.pattern = some (rnd i)) ∧
    execute rnd r m devicePath size = .error ("Unknown overwrite method: " ++ m) ∧
    (∀ m2 ∈ objectPrototypeProps, m2 ≠ "__proto__" → devicePath ≠ "" →
      execute rnd r m2 devicePath size =
        .ok { passesCompleted := 0, bytesWritten := 0 }) := by
  have hfloor0 : (0 : ℤ) ≤ ⌊r * 41⌋ := by
    apply Int.floor_nonneg.mpr
    positivity
  have hfloor1 : ⌊r * 41⌋ < 41 := by
    apply Int.floor_lt.mpr
    push_cast
    nlinarith
  have hlen : (pfitznerSpecs rnd r).length = (pfitznerPassCount r).toNat := by
    simp [pfitznerSpecs]
  refine ⟨?_, ?_, ?_, ?_, ?_, ?_, ?_, ?_, ?_, ?_, ?_, ?_⟩
  · exact .cons trivial .nil
  · exact .cons rfl (.cons rfl (.cons trivial .nil))
  · exact .cons rfl (.cons rfl (.cons rfl (.cons rfl (.cons rfl
      (.cons trivial (.cons trivial .nil))))))
  · exact .cons rfl (.cons rfl (.cons trivial (.cons trivial (.cons trivial
      (.cons trivial (.cons trivial .nil))))))
  · simp [gutmannSpecs]
  · intro p hp
    simp only [gutmannSpecs, List.mem_map, List.mem_range] at hp
    obtain ⟨i, hi, rfl⟩ := hp
    exact ⟨i, hi, rfl⟩
  · have : ((gutmannSpecs rnd).map PassSpec.pattern) =
        (List.range 35).map fun i => some (rnd i) := by
      simp [gutmannSpecs, List.map_map]
    rw [this]
    exact (List.nodup_range 35).map ((Option.some_injective _).comp hrnd)
  · rw [hlen]
    simp only [pfitznerPassCount]
    omega
  · rw [hlen]
    simp only [pfitznerPassCount]
    omega
  · intro p hp
    simp only [pfitznerSpecs, List.mem_map, List.mem_range] at hp
    obtain ⟨i, hi, rfl⟩ := hp
    exact ⟨i, rfl⟩
  · have hfalse : methodsLookupTruthy m = false := by
      simp [methodsLookupTruthy, hm, hm2]
    simp [execute, hfalse]
  · intro m2 hm2mem hne hdp
    simp only [objectPrototypeProps, List.mem_cons, List.not_mem_nil, or_false] at hm2mem
    rcases hm2mem with rfl | rfl | rfl | rfl | rfl | rfl | rfl | rfl | rfl | rfl | rfl | rfl <;>
      first
      | exact absurd rfl hne
      | simp [execute, methodsLookupTruthy, methodSpecs, knownMethods,
          objectPrototypeProps, hdp]

end SecureOverwriteEngine

/-- Witness for C4 at a concrete random source, draw and method name. -/
theorem passSequences_match_table_witness :
    Function.Injective wRnd ∧ (0 : ℚ) ≤ 0 ∧ (0 : ℚ) < 1 ∧
    "zerofill" ∉ SecureOverwriteEngine.knownMethods ∧
    "zerofill" ∉ SecureOverwriteEngine.objectPrototypeProps ∧
    (List.Forall₂ realizesFill tableOnePass
        (SecureOverwriteEngine.onePassSpecs.map SecureOverwriteEngine.PassSpec.pattern) ∧
     List.Forall₂ realizesFill tableThreePass
        (SecureOverwriteEngine.threePassSpecs.map SecureOverwriteEngine.PassSpec.pattern) ∧
     List.Forall₂ realizesFill tableSevenPass
        (SecureOverwriteEngine.sevenPassSpecs.map SecureOverwriteEngine.PassSpec.pattern) ∧
     List.Forall₂ realizesFill tableSchneier
        (SecureOverwriteEngine.schneierSpecs.map SecureOverwriteEngine.PassSpec.pattern) ∧
     (SecureOverwriteEngine.gutmannSpecs wRnd).length = 35 ∧
     (∀ p ∈ SecureOverwriteEngine.gutmannSpecs wRnd, ∃ i < 35, p.pattern = some (wRnd i)) ∧
     ((SecureOverwriteEngine.gutmannSpecs wRnd).map SecureOverwriteEngine.PassSpec.pattern).Nodup ∧
     10 ≤ (SecureOverwriteEngine.pfitznerSpecs wRnd 0).length ∧
     (SecureOverwriteEngine.pfitznerSpecs wRnd 0).length ≤ 50 ∧
     (∀ p ∈ SecureOverwriteEngine.pfitznerSpecs wRnd 0, ∃ i, p.pattern = some (wRnd i)) ∧
     SecureOverwriteEngine.execute wRnd 0 "zerofill" "/dev/x" 64 =
       .error ("Unknown overwrite method: " ++ "zerofill") ∧
     (∀ m2 ∈ SecureOverwriteEngine.objectPrototypeProps, m2 ≠ "__proto__" →
       "/dev/x" ≠ "" →
       SecureOverwriteEngine.execute wRnd 0 m2 "/dev/x" 64 =
         .ok { passesCompleted := 0, bytesWritten := 0 })) := by
  have hinj : Function.Injective wRnd := by
    intro a b h
    simpa [wRnd] using h
  exact ⟨hinj, by norm_num, by norm_num, by decide, by decide,
    SecureOverwriteEngine.passSequences_match_table wRnd hinj 0 (by norm_num)
      (by norm_num) "zerofill" "/dev/x" (by decide) (by decide) 64⟩

/-- C4 counterexample: `"toString"` is not a recognized method name, yet
`execute` does not fail with the unknown-method error: the JS lookup
`this.methods['toString']` hits the inherited truthy
`Object.prototype.toString`, the guard passes, and the call resolves
without running any pass or writing any byte. -/
theorem execute_inherited_name_no_error :
    "toString" ∉ SecureOverwriteEngine.knownMethods ∧
    SecureOverwriteEngine.execute wRnd 0 "toString" "/dev/x" 64 =
      .ok { passesCompleted := 0, bytesWritten := 0 } ∧
    ∀ e : String, SecureOverwriteEngine.execute wRnd 0 "toString" "/dev/x" 64 ≠
      .error e := by
  have heval : SecureOverwriteEngine.execute wRnd 0 "toString" "/dev/x" 64 =
      .ok { passesCompleted := 0, bytesWritten := 0 } := rfl
  refine ⟨by decide, heval, ?_⟩
  intro e h
  rw [heval] at h
  simp at h

/-- Helper: a partition in the wipe list shares its device with no
identified OS partition. -/
theorem wipeFilter_device_not_os {platform : Platform}
    {sigRead : String → Except Unit (List Nat)} {partitions : List Partition}
    {q : Partition} (hq : q ∈ wipeFilter platform sigRead partitions) :
    ∀ o ∈ identifyOSPartitions platform sigRead partitions, o.device ≠ q.device := by
  intro o ho hdev
  simp only [wipeFilter] at hq
  have h2 := (List.mem_filter.mp hq).2
  rw [Bool.not_eq_true'] at h2
  rw [List.any_eq_false] at h2
  exact h2 o ho (by simp [hdev])

/-- Helper: every partition in the wipe list passes the `isSafeToWipe`
gate against the identified OS partitions. -/
theorem wipeFilter_safe {platform : Platform}
    {sigRead : String → Except Unit (List Nat)} {partitions : List Partition}
    {q : Partition} (hq : q ∈ wipeFilter platform sigRead partitions) :
    isSafeToWipe q.device (identifyOSPartitions platform sigRead partitions) = true := by
  cases h : isSafeToWipe q.device (identifyOSPartitions platform sigRead partitions) with
  | false =>
    exfalso
    obtain ⟨o, ho, hdev⟩ := (isSafeToWipe_eq_false_iff _ _).mp h
    exact wipeFilter_device_not_os hq o ho hdev
  | true => rfl

/-- Helper: every device in the wipe loop's invocation trace is the device
of some partition in the processed list. -/
theorem wipeLoop_trace_mem {engineErr : String → Option String}
    {osPartitions : List Partition} :
    ∀ {l : List Partition} {d : String}, d ∈ (wipeLoop engineErr osPartitions l).1 →
      ∃ q ∈ l, q.device = d := by
  intro l
  induction l with
  | nil =>
    intro d hd
    simp [wipeLoop] at hd
  | cons p rest ih =>
    intro d hd
    simp only [wipeLoop] at hd
    split at hd
    · obtain ⟨q, hq, hqd⟩ := ih hd
      exact ⟨q, List.mem_cons_of_mem _ hq, hqd⟩
    · cases hE : engineErr p.device with
      | some e =>
        rw [hE] at hd
        simp only [List.mem_singleton] at hd
        exact ⟨p, List.mem_cons_self _ _, hd.symm⟩
      | none =>
        rw [hE] at hd
        simp only [List.mem_cons] at hd
        rcases hd with h | h
        · exact ⟨p, List.mem_cons_self _ _, h.symm⟩
        · obtain ⟨q, hq, hqd⟩ := ih h
          exact ⟨q, List.mem_cons_of_mem _ hq, hqd⟩

/-- Helper: every device `executeWipe` invoked the engine on comes from the
wipe list. -/
theorem executeWipe_trace_mem {platform : Platform}
    {sigRead : String → Except Unit (List Nat)} {engineErr : String → Option String}
    {verifyOk : String → Bool} {partitions : List Partition} {d : String}
    (hd : d ∈ (executeWipe platform sigRead engineErr verifyOk partitions).1) :
    ∃ q ∈ wipeFilter platform sigRead partitions, q.device = d := by
  simp only [executeWipe] at hd
  split at hd
  · simp at hd
  · split at hd
    · next tr e heq =>
      have hd2 : d ∈ (wipeLoop engineErr (identifyOSPartitions platform sigRead partitions)
          (wipeFilter platform sigRead partitions)).1 := by
        rw [heq]
        exact hd
      exact wipeLoop_trace_mem hd2
    · next tr heq =>
      have hd2 : d ∈ (wipeLoop engineErr (identifyOSPartitions platform sigRead partitions)
          (wipeFilter platform sigRead partitions)).1 := by
        rw [heq]
        split at hd
        · exact hd
        · exact hd
      exact wipeLoop_trace_mem hd2

/-- Helper: every device `executeAdvancedWipe` invoked the engine on comes
from the wipe list. -/
theorem executeAdvancedWipe_trace_mem {method verificationLevel : String}
    {platform : Platform} {sigRead : String → Except Unit (List Nat)}
    {engineErr : String → Option String} {verifyOk : String → Bool}
    {partitions : List Partition} {d : String}
    (hd : d ∈ (executeAdvancedWipe method verificationLevel platform sigRead
      engineErr verifyOk partitions).1) :
    ∃ q ∈ wipeFilter platform sigRead partitions, q.device = d := by
  simp only [executeAdvancedWipe] at hd
  split at hd
  · simp at hd
  · split at hd
    · next tr e heq =>
      have hd2 : d ∈ (wipeLoop engineErr (identifyOSPartitions platform sigRead partitions)
          (wipeFilter platform sigRead partitions)).1 := by
        rw [heq]
        exact hd
      exact wipeLoop_trace_mem hd2
    · next tr heq =>
      have hd2 : d ∈ (wipeLoop engineErr (identifyOSPartitions platform sigRead partitions)
          (wipeFilter platform sigRead partitions)).1 := by
        rw [heq]
        split at hd
        · exact hd
        · exact hd
      exact wipeLoop_trace_mem hd2

/-- Helper: a successful `executeWipe` summary is exactly the wipe-list
length and OS-partition count. -/
theorem executeWipe_ok_eq {platform : Platform}
    {sigRead : String → Except Unit (List Nat)} {engineErr : String → Option String}
    {verifyOk : String → Bool} {partitions : List Partition} {s : WipeSummary}
    (hs : (executeWipe platform sigRead engineErr verifyOk partitions).2 = .ok s) :
    s = { partitionsWiped := (wipeFilter platform sigRead partitions).length,
          osPartitionsProtected :=
            (identifyOSPartitions platform sigRead partitions).length } := by
  simp only [executeWipe] at hs
  split at hs
  · simp at hs
  · split at hs
    · simp at hs
    · split at hs
      · simp at hs
      · simp only [Except.ok.injEq] at hs
        exact hs.symm

/-- Helper: a successful `executeAdvancedWipe` summary carries the wipe-list
length, OS-partition count and the wipe-list devices as report. -/
theorem executeAdvancedWipe_ok_eq {method verificationLevel : String}
    {platform : Platform} {sigRead : String → Except Unit (List Nat)}
    {engineErr : String → Option String} {verifyOk : String → Bool}
    {partitions : List Partition} {s : AdvancedSummary}
    (hs : (executeAdvancedWipe method verificationLevel platform sigRead
      engineErr verifyOk partitions).2 = .ok s) :
    s = { partitionsWiped := (wipeFilter platform sigRead partitions).length,
          osPartitionsProtected :=
            (identifyOSPartitions platform sigRead partitions).length,
          confidence := getConfidenceLevel verificationLevel,
          reportPartitions := (wipeFilter platform sigRead partitions).map Partition.device,
          reportStandards := getComplianceStandards method verificationLevel } := by
  simp only [executeAdvancedWipe] at hs
  split at hs
  · simp at hs
  · split at hs
    · simp at hs
    · split at hs
      · simp at hs
      · simp only [Except.ok.injEq] at hs
        exact hs.symm

/-- C1: a partition the detector classifies as an OS partition is counted
among the identified OS partitions, whose number the results report as
`osPartitionsProtected`; the overwrite engine is never invoked on its device
path by `executeWipe` or `executeAdvancedWipe`; it is excluded from the wipe
list, whose length the results report as `partitionsWiped`; and it never
appears in the compliance report's wiped-partition list. -/
theorem osPartition_never_wiped (method verificationLevel : String) (platform : Platform)
    (sigRead : String → Except Unit (List Nat)) (engineErr : String → Option String)
    (verifyOk : String → Bool) (partitions : List Partition) (p : Partition)
    (hp : p ∈ partitions) (hos : isOSPartition platform (sigRead p.device) p = true) :
    p ∈ identifyOSPartitions platform sigRead partitions ∧
    p.device ∉ (wipeFilter platform sigRead partitions).map Partition.device ∧
    p.device ∉ (executeWipe platform sigRead engineErr verifyOk partitions).1 ∧
    p.device ∉ (executeAdvancedWipe method verificationLevel platform sigRead
      engineErr verifyOk partitions).1 ∧
    (∀ s, (executeWipe platform sigRead engineErr verifyOk partitions).2 = .ok s →
      s.osPartitionsProtected = (identifyOSPartitions platform sigRead partitions).length ∧
      s.partitionsWiped = (wipeFilter platform sigRead partitions).length) ∧
    (∀ s, (executeAdvancedWipe method verificationLevel platform sigRead
        engineErr verifyOk partitions).2 = .ok s →
      s.osPartitionsProtected = (identifyOSPartitions platform sigRead partitions).length ∧
      s.partitionsWiped = (wipeFilter platform sigRead partitions).length ∧
      p.device ∉ s.reportPartitions) := by
  have hmem : p ∈ identifyOSPartitions platform sigRead partitions :=
    List.mem_filter.mpr ⟨hp, hos⟩
  have hnotin : p.device ∉ (wipeFilter platform sigRead partitions).map Partition.device := by
    intro h
    obtain ⟨q, hq, hqd⟩ := List.mem_map.mp h
    exact wipeFilter_device_not_os hq p hmem hqd.symm
  refine ⟨hmem, hnotin, ?_, ?_, ?_, ?_⟩
  · intro h
    obtain ⟨q, hq, hqd⟩ := executeWipe_trace_mem h
    exact wipeFilter_device_not_os hq p hmem hqd.symm
  · intro h
    obtain ⟨q, hq, hqd⟩ := executeAdvancedWipe_trace_mem h
    exact wipeFilter_device_not_os hq p hmem hqd.symm
  · intro s hs
    rw [executeWipe_ok_eq hs]
    exact ⟨rfl, rfl⟩
  · intro s hs
    rw [executeAdvancedWipe_ok_eq hs]
    exact ⟨rfl, rfl, hnotin⟩

/-- Witness for C1 at a concrete two-partition inventory on Linux. -/
theorem osPartition_never_wiped_witness :
    wOSPartition ∈ [wOSPartition, wDataPartition] ∧
    isOSPartition Platform.linux (wSigRead wOSPartition.device) wOSPartition = true ∧
    (wOSPartition ∈ identifyOSPartitions Platform.linux wSigRead [wOSPartition, wDataPartition] ∧
     wOSPartition.device ∉
       (wipeFilter Platform.linux wSigRead [wOSPartition, wDataPartition]).map Partition.device ∧
     wOSPartition.device ∉
       (executeWipe Platform.linux wSigRead wEngineOk wVerifyOk [wOSPartition, wDataPartition]).1 ∧
     wOSPartition.device ∉
       (executeAdvancedWipe "3-pass" "thorough" Platform.linux wSigRead wEngineOk wVerifyOk
         [wOSPartition, wDataPartition]).1 ∧
     (∀ s, (executeWipe Platform.linux wSigRead wEngineOk wVerifyOk
         [wOSPartition, wDataPartition]).2 = .ok s →
       s.osPartitionsProtected =
         (identifyOSPartitions Platform.linux wSigRead [wOSPartition, wDataPartition]).length ∧
       s.partitionsWiped =
         (wipeFilter Platform.linux wSigRead [wOSPartition, wDataPartition]).length) ∧
     (∀ s, (executeAdvancedWipe "3-pass" "thorough" Platform.linux wSigRead wEngineOk wVerifyOk
         [wOSPartition, wDataPartition]).2 = .ok s →
       s.osPartitionsProtected =
         (identifyOSPartitions Platform.linux wSigRead [wOSPartition, wDataPartition]).length ∧
       s.partitionsWiped =
         (wipeFilter Platform.linux wSigRead [wOSPartition, wDataPartition]).length ∧
       wOSPartition.device ∉ s.reportPartitions)) := by
  refine ⟨by simp, rfl, ?_⟩
  exact osPartition_never_wiped "3-pass" "thorough" Platform.linux wSigRead wEngineOk
    wVerifyOk [wOSPartition, wDataPartition] wOSPartition (by simp) rfl

/-- C6 counterexample: with a single partition classified as an OS
partition, both orchestrations throw the all-protected error instead of
returning a no-op success result with an empty wiped list. -/
theorem allProtected_error_example :
    (executeWipe Platform.linux wSigRead wEngineOk wVerifyOk [wOSPartition]).2 =
      .error noWipeablesMsg ∧
    (executeAdvancedWipe "3-pass" "quick" Platform.linux wSigRead wEngineOk wVerifyOk
      [wOSPartition]).2 = .error noWipeablesMsg := by
  exact ⟨rfl, rfl⟩

/-- C6 (amended): when classification leaves no wipeable unit, the
orchestrated run does not return a no-op success: both `executeWipe` and
`executeAdvancedWipe` throw the `noWipeablesMsg` error, with the engine
never invoked. -/
theorem allProtected_throws (method verificationLevel : String) (platform : Platform)
    (sigRead : String → Except Unit (List Nat)) (engineErr : String → Option String)
    (verifyOk : String → Bool) (partitions : List Partition)
    (hall : ∀ p ∈ partitions, isOSPartition platform (sigRead p.device) p = true) :
    executeWipe platform sigRead engineErr verifyOk partitions =
      ([], .error noWipeablesMsg) ∧
    executeAdvancedWipe method verificationLevel platform sigRead engineErr verifyOk
      partitions = ([], .error noWipeablesMsg) := by
  have hw : wipeFilter platform sigRead partitions = [] := by
    simp only [wipeFilter]
    rw [List.filter_eq_nil_iff]
    intro q hq
    have hqos : q ∈ identifyOSPartitions platform sigRead partitions :=
      List.mem_filter.mpr ⟨hq, hall q hq⟩
    simp only [Bool.not_eq_true', Bool.not_eq_false, List.any_eq_true]
    exact ⟨q, hqos, by simp⟩
  constructor
  · simp [executeWipe, hw]
  · simp [executeAdvancedWipe, hw]

/-- Witness for C6 at a concrete single-partition inventory. -/
theorem allProtected_throws_witness :
    (∀ p ∈ [wOSPartition], isOSPartition Platform.linux (wSigRead p.device) p = true) ∧
    (executeWipe Platform.linux wSigRead wEngineOk wVerifyOk [wOSPartition] =
      ([], .error noWipeablesMsg) ∧
     executeAdvancedWipe "7-pass" "military" Platform.linux wSigRead wEngineOk wVerifyOk
       [wOSPartition] = ([], .error noWipeablesMsg)) := by
  refine ⟨by decide, ?_⟩
  exact allProtected_throws "7-pass" "military" Platform.linux wSigRead wEngineOk
    wVerifyOk [wOSPartition] (by decide)

/-- Helper: when every listed partition passes the safety gate, the engine
succeeds on the prefix `l₁` and throws `e` on `p`, the wipe loop's trace is
the prefix devices followed by `p`'s device, and the loop stops with `e` —
the partitions after `p` are never reached. -/
theorem wipeLoop_append_fail (engineErr : String → Option String)
    (osPartitions : List Partition) (l₁ : List Partition) (l₂ : List Partition)
    (p : Partition) (e : String)
    (hsafe : ∀ q ∈ l₁ ++ p :: l₂, isSafeToWipe q.device osPartitions = true)
    (hok : ∀ q ∈ l₁, engineErr q.device = none)
    (hfail : engineErr p.device = some e) :
    wipeLoop engineErr osPartitions (l₁ ++ p :: l₂) =
      (l₁.map Partition.device ++ [p.device], some e) := by
  induction l₁ with
  | nil =>
    have hs := hsafe p (by simp)
    simp only [List.nil_append, wipeLoop, hs, hfail]
    simp
  | cons q l₁ ih =>
    have hs := hsafe q (by simp)
    have hq := hok q (by simp)
    have ih2 := ih (fun x hx => hsafe x (by simp only [List.cons_append, List.mem_cons]; right; exact hx))
      (fun x hx => hok x (List.mem_cons_of_mem _ hx))
    simp only [List.cons_append, wipeLoop, hs, hq]
    simp [ih2]

/-- Helper: when every listed partition passes the safety gate and every
engine call succeeds, the wipe loop invokes the engine on every device and
reports no error. -/
theorem wipeLoop_all_ok (engineErr : String → Option String)
    (osPartitions : List Partition) (l : List Partition)
    (hsafe : ∀ q ∈ l, isSafeToWipe q.device osPartitions = true)
    (hok : ∀ q ∈ l, engineErr q.device = none) :
    wipeLoop engineErr osPartitions l = (l.map Partition.device, none) := by
  induction l with
  | nil => rfl
  | cons q rest ih =>
    have hs := hsafe q (by simp)
    have hq := hok q (by simp)
    have ih2 := ih (fun x hx => hsafe x (List.mem_cons_of_mem _ hx))
      (fun x hx => hok x (List.mem_cons_of_mem _ hx))
    simp only [wipeLoop, hs, hq]
    simp [ih2]

/-- Helper: the verification loop stops at the first failing unit with that
unit's verification-failure message. -/
theorem verifyLoop_append_fail (verifyOk : String → Bool)
    (l₁ l₂ : List Partition) (p : Partition)
    (hok : ∀ q ∈ l₁, verifyOk q.device = true)
    (hfail : verifyOk p.device = false) :
    verifyLoop verifyOk (l₁ ++ p :: l₂) =
      some ("Verification failed for " ++ p.device) := by
  induction l₁ with
  | nil =>
    simp only [List.nil_append, verifyLoop, hfail]
    simp
  | cons q l₁ ih =>
    have hq := hok q (by simp)
    simp only [List.cons_append, verifyLoop, hq, if_true]
    exact ih fun x hx => hok x (List.mem_cons_of_mem _ hx)

/-- C7 counterexample: two wipeable partitions, the engine throws on the
first; the run aborts as a whole — the result is the error (no report with
per-unit dispositions exists) and the second partition's device was never
passed to the engine. -/
theorem unit_error_aborts_example :
    executeWipe Platform.linux wSigRead wEngineFailFirst wVerifyOk
        [wDataPartition, wSndPartition] = (["/dev/sdb1"], .error "boom") ∧
    "/dev/sdc1" ∉ (executeWipe Platform.linux wSigRead wEngineFailFirst wVerifyOk
        [wDataPartition, wSndPartition]).1 := by
  exact ⟨rfl, by decide⟩

/-- C7 (amended): an error during a multi-unit run aborts the entire run,
not only the affected unit.  An overwrite-engine error on one unit makes
both orchestrations rethrow it: no summary or per-unit result is produced,
the invocation trace stops at the failing unit, and units after it are never
passed to the engine.  A verification error also aborts the whole run with
the first failing unit's verification error and produces no summary — but
only after every unit has already been wiped, because the wipe loop
completes over all units before verification begins. -/
theorem unit_error_aborts_run (method verificationLevel : String) (platform : Platform)
    (sigRead : String → Except Unit (List Nat)) (engineErr : String → Option String)
    (verifyOk : String → Bool) (partitions : List Partition) :
    (∀ (l₁ l₂ : List Partition) (p : Partition) (e : String),
      wipeFilter platform sigRead partitions = l₁ ++ p :: l₂ →
      (∀ q ∈ l₁, engineErr q.device = none) →
      engineErr p.device = some e →
      executeWipe platform sigRead engineErr verifyOk partitions =
        (l₁.map Partition.device ++ [p.device], .error e) ∧
      executeAdvancedWipe method verificationLevel platform sigRead engineErr verifyOk
        partitions = (l₁.map Partition.device ++ [p.device], .error e) ∧
      ∀ q ∈ l₂, q.device ∉ l₁.map Partition.device ++ [p.device] →
        q.device ∉ (executeWipe platform sigRead engineErr verifyOk partitions).1) ∧
    (∀ (l₁ l₂ : List Partition) (p : Partition),
      wipeFilter platform sigRead partitions = l₁ ++ p :: l₂ →
      (∀ q ∈ wipeFilter platform sigRead partitions, engineErr q.device = none) →
      (∀ q ∈ l₁, verifyOk q.device = true) →
      verifyOk p.device = false →
      executeWipe platform sigRead engineErr verifyOk partitions =
        ((wipeFilter platform sigRead partitions).map Partition.device,
         .error ("Verification failed for " ++ p.device)) ∧
      executeAdvancedWipe method verificationLevel platform sigRead engineErr verifyOk
        partitions =
        ((wipeFilter platform sigRead partitions).map Partition.device,
         .error ("Verification failed for " ++ p.device))) := by
  constructor
  · intro l₁ l₂ p e hsplit hok hfail
    have hsafe : ∀ q ∈ l₁ ++ p :: l₂,
        isSafeToWipe q.device (identifyOSPartitions platform sigRead partitions) = true := by
      intro q hq
      exact wipeFilter_safe (by rw [hsplit]; exact hq)
    have hloop := wipeLoop_append_fail engineErr
      (identifyOSPartitions platform sigRead partitions) l₁ l₂ p e hsafe hok hfail
    have hloop2 : wipeLoop engineErr (identifyOSPartitions platform sigRead partitions)
        (wipeFilter platform sigRead partitions) =
        (l₁.map Partition.device ++ [p.device], some e) := by
      rw [hsplit]
      exact hloop
    have hne : ¬ (wipeFilter platform sigRead partitions).length = 0 := by
      rw [hsplit]
      simp
    have h1 : executeWipe platform sigRead engineErr verifyOk partitions =
        (l₁.map Partition.device ++ [p.device], .error e) := by
      simp only [executeWipe, hne, if_false, hloop2]
    refine ⟨h1, ?_, ?_⟩
    · simp only [executeAdvancedWipe, hne, if_false, hloop2]
    · intro q hq hnot
      rw [h1]
      exact hnot
  · intro l₁ l₂ p hsplit hengok hvok hvfail
    have hsafe : ∀ q ∈ wipeFilter platform sigRead partitions,
        isSafeToWipe q.device (identifyOSPartitions platform sigRead partitions) = true :=
      fun q hq => wipeFilter_safe hq
    have hloop : wipeLoop engineErr (identifyOSPartitions platform sigRead partitions)
        (wipeFilter platform sigRead partitions) =
        ((wipeFilter platform sigRead partitions).map Partition.device, none) :=
      wipeLoop_all_ok engineErr _ _ hsafe hengok
    have hver : verifyLoop verifyOk (wipeFilter platform sigRead partitions) =
        some ("Verification failed for " ++ p.device) := by
      rw [hsplit]
      exact verifyLoop_append_fail verifyOk l₁ l₂ p hvok hvfail
    have hne : ¬ (wipeFilter platform sigRead partitions).length = 0 := by
      rw [hsplit]
      simp
    constructor
    · simp only [executeWipe, hne, if_false, hloop, hver]
    · simp only [executeAdvancedWipe, hne, if_false, hloop, hver]

/-- Witness for C7: the engine clause at a concrete two-partition run whose
first engine call throws, and the verification clause at a concrete run
whose first verification fails. -/
theorem unit_error_aborts_run_witness :
    wipeFilter Platform.linux wSigRead [wDataPartition, wSndPartition] =
      [] ++ wDataPartition :: [wSndPartition] ∧
    (∀ q ∈ ([] : List Partition), wEngineFailFirst q.device = none) ∧
    wEngineFailFirst wDataPartition.device = some "boom" ∧
    (∀ q ∈ wipeFilter Platform.linux wSigRead [wDataPartition, wSndPartition],
      wEngineOk q.device = none) ∧
    (∀ q ∈ ([] : List Partition), wVerifyFailFirst q.device = true) ∧
    wVerifyFailFirst wDataPartition.device = false ∧
    (executeWipe Platform.linux wSigRead wEngineFailFirst wVerifyOk
        [wDataPartition, wSndPartition] =
      (([] : List Partition).map Partition.device ++ [wDataPartition.device], .error "boom") ∧
     executeAdvancedWipe "gutmann" "quantum" Platform.linux wSigRead wEngineFailFirst
        wVerifyOk [wDataPartition, wSndPartition] =
      (([] : List Partition).map Partition.device ++ [wDataPartition.device], .error "boom") ∧
     ∀ q ∈ [wSndPartition],
       q.device ∉ ([] : List Partition).map Partition.device ++ [wDataPartition.device] →
       q.device ∉ (executeWipe Platform.linux wSigRead wEngineFailFirst wVerifyOk
         [wDataPartition, wSndPartition]).1) ∧
    (executeWipe Platform.linux wSigRead wEngineOk wVerifyFailFirst
        [wDataPartition, wSndPartition] =
      ((wipeFilter Platform.linux wSigRead [wDataPartition, wSndPartition]).map
         Partition.device,
       .error ("Verification failed for " ++ wDataPartition.device)) ∧
     executeAdvancedWipe "gutmann" "quantum" Platform.linux wSigRead wEngineOk
        wVerifyFailFirst [wDataPartition, wSndPartition] =
      ((wipeFilter Platform.linux wSigRead [wDataPartition, wSndPartition]).map
         Partition.device,
       .error ("Verification failed for " ++ wDataPartition.device))) := by
  refine ⟨rfl, by simp, rfl, by decide, by simp, rfl, ?_, ?_⟩
  · exact (unit_error_aborts_run "gutmann" "quantum" Platform.linux wSigRead
      wEngineFailFirst wVerifyOk [wDataPartition, wSndPartition]).1
      [] [wSndPartition] wDataPartition "boom" rfl (by simp) rfl
  · exact (unit_error_aborts_run "gutmann" "quantum" Platform.linux wSigRead
      wEngineOk wVerifyFailFirst [wDataPartition, wSndPartition]).2
      [] [wSndPartition] wDataPartition rfl (by decide) (by simp) rfl

/-- C9 counterexample: the DoD gate is `method.includes('7-pass')`, a
substring test, so the method name `"x7-pass"` — which is none of 7-pass,
gutmann or schneier — still receives the DoD 5220.22-M entry. -/
theorem complianceStandards_includes_example :
    getComplianceStandards "x7-pass" "quick" = ["NIST SP 800-88", "DoD 5220.22-M"] ∧
    "x7-pass" ≠ "7-pass" ∧ "x7-pass" ≠ "gutmann" ∧ "x7-pass" ≠ "schneier" := by
  exact ⟨by decide, by decide, by decide, by decide⟩

/-- C9 (amended): for every method string and level, the standards list
contains NIST SP 800-88 always; it contains DoD 5220.22-M exactly when the
method contains the substring "7-pass" or equals gutmann or schneier — which
for the six recognized method names coincides with membership in
{7-pass, gutmann, schneier} — and it contains NSA CSS.5 exactly when the
level is military or quantum. -/
theorem complianceStandards_membership :
    (∀ method verificationLevel : String,
      "NIST SP 800-88" ∈ getComplianceStandards method verificationLevel ∧
      ("DoD 5220.22-M" ∈ getComplianceStandards method verificationLevel ↔
        (jsIncludes method "7-pass" = true ∨ method = "gutmann" ∨ method = "schneier")) ∧
      ("NSA CSS.5" ∈ getComplianceStandards method verificationLevel ↔
        (verificationLevel = "military" ∨ verificationLevel = "quantum"))) ∧
    (∀ method ∈ SecureOverwriteEngine.knownMethods, ∀ verificationLevel : String,
      ("DoD 5220.22-M" ∈ getComplianceStandards method verificationLevel ↔
        (method = "7-pass" ∨ method = "gutmann" ∨ method = "schneier"))) := by
  constructor
  · intro method verificationLevel
    simp only [getComplianceStandards]
    split_ifs with hd hl hl <;>
      simp_all [Bool.or_eq_true, beq_iff_eq] <;>
      tauto
  · intro method hmethod verificationLevel
    simp only [SecureOverwriteEngine.knownMethods, List.mem_cons, List.not_mem_nil,
      or_false] at hmethod
    rcases hmethod with rfl | rfl | rfl | rfl | rfl | rfl
    · simp only [getComplianceStandards,
        show (jsIncludes "1-pass" "7-pass" || ("1-pass" == "gutmann") ||
          ("1-pass" == "schneier")) = false from by decide]
      split_ifs <;> first
      | contradiction
      | decide
    · simp only [getComplianceStandards,
        show (jsIncludes "3-pass" "7-pass" || ("3-pass" == "gutmann") ||
          ("3-pass" == "schneier")) = false from by decide]
      split_ifs <;> first
      | contradiction
      | decide
    · simp only [getComplianceStandards,
        show (jsIncludes "7-pass" "7-pass" || ("7-pass" == "gutmann") ||
          ("7-pass" == "schneier")) = true from by decide]
      split_ifs <;> decide
    · simp only [getComplianceStandards,
        show (jsIncludes "gutmann" "7-pass" || ("gutmann" == "gutmann") ||
          ("gutmann" == "schneier")) = true from by decide]
      split_ifs <;> decide
    · simp only [getComplianceStandards,
        show (jsIncludes "schneier" "7-pass" || ("schneier" == "gutmann") ||
          ("schneier" == "schneier")) = true from by decide]
      split_ifs <;> decide
    · simp only [getComplianceStandards,
        show (jsIncludes "pfitzner" "7-pass" || ("pfitzner" == "gutmann") ||
          ("pfitzner" == "schneier")) = false from by decide]
      split_ifs <;> first
      | contradiction
      | decide

/-- Witness for C9's recognized-method clause at method 7-pass. -/
theorem complianceStandards_membership_witness :
    "7-pass" ∈ SecureOverwriteEngine.knownMethods ∧
    ("DoD 5220.22-M" ∈ getComplianceStandards "7-pass" "quick" ↔
      ("7-pass" = "7-pass" ∨ "7-pass" = "gutmann" ∨ "7-pass" = "schneier")) :=
  ⟨by decide, complianceStandards_membership.2 "7-pass" (by decide) "quick"⟩

/-- Helper: a pointwise-zero buffer is judged clean (zero fraction 1). -/
theorem isSectorClean_of_zero {buffer : Nat → Nat} (hb : ∀ j, buffer j = 0) :
    DataVerifier.isSectorClean buffer 1048576 = true := by
  have hw : min 1048576 1024 = 1024 := by norm_num
  have hc : ((List.range 1024).countP fun i => buffer i == 0) = 1024 := by
    have h : ((List.range 1024).countP fun i => buffer i == 0) =
        (List.range 1024).length :=
      List.countP_eq_length.mpr (fun a _ => by simp [hb])
    simpa using h
  simp only [DataVerifier.isSectorClean, hw, hc, Bool.or_eq_true, decide_eq_true_eq]
  left
  norm_num

set_option maxRecDepth 8192 in
/-- Helper: a buffer whose first kilobyte is the monotonically increasing
byte sequence is also judged clean — exactly 4 of its first 1024 bytes are
zero, a fraction below 0.1. -/
theorem isSectorClean_of_increasing {buffer : Nat → Nat}
    (hb : ∀ j, j < 1024 → buffer j = j % 256) :
    DataVerifier.isSectorClean buffer 1048576 = true := by
  have hw : min 1048576 1024 = 1024 := by norm_num
  have hc : ((List.range 1024).countP fun i => buffer i == 0) = 4 := by
    have hcong : ((List.range 1024).countP fun i => buffer i == 0) =
        ((List.range 1024).countP fun i => i % 256 == 0) := by
      apply List.countP_congr
      intro a ha
      rw [List.mem_range] at ha
      simp [hb a ha]
    rw [hcong]
    decide
  simp only [DataVerifier.isSectorClean, hw, hc, Bool.or_eq_true, decide_eq_true_eq]
  right
  norm_num

/-- Helper: scanning an all-zero device keeps the reused buffer pointwise
zero and counts every scanned chunk as clean. -/
theorem verifyStep_zero_invariant (size n : Nat) :
    ∀ (l : List Nat) (b : Nat → Nat) (c : Nat), (∀ j, b j = 0) →
      (l.foldl (DataVerifier.verifyStep zeroFile size n) (b, c)).2 = c + l.length ∧
      ∀ j, (l.foldl (DataVerifier.verifyStep zeroFile size n) (b, c)).1 j = 0 := by
  intro l
  induction l with
  | nil =>
    intro b c hb
    exact ⟨by simp, hb⟩
  | cons x xs ih =>
    intro b c hb
    have hb' : ∀ j, (DataVerifier.verifyStep zeroFile size n (b, c) x).1 j = 0 := by
      intro j
      simp only [DataVerifier.verifyStep, zeroFile]
      split <;> simp [hb]
    have hstep2 : (DataVerifier.verifyStep zeroFile size n (b, c) x).2 = c + 1 := by
      have hclean := isSectorClean_of_zero hb'
      simp only [DataVerifier.verifyStep] at hclean ⊢
      rw [hclean]
      simp
    obtain ⟨ih1, ih2⟩ := ih (DataVerifier.verifyStep zeroFile size n (b, c) x).1
      (DataVerifier.verifyStep zeroFile size n (b, c) x).2 hb'
    rw [Prod.mk.eta] at ih1 ih2
    constructor
    · simp only [List.foldl_cons]
      rw [ih1, hstep2]
      simp only [List.length_cons]
      omega
    · intro j
      simp only [List.foldl_cons]
      exact ih2 j

/-- Helper: thorough verification of an all-zero device of any positive size
reports success with confidence exactly 1. -/
theorem thorough_zero_eval (size : Nat) (hs : 1 ≤ size) :
    DataVerifier.thoroughVerification zeroFile size =
      { success := true, confidence := 1 } := by
  have hn : 1 ≤ min 100 ((size + 1048576 - 1) / 1048576) := by
    have h1 : 1 ≤ (size + 1048576 - 1) / 1048576 := by
      rw [Nat.le_div_iff_mul_le (by norm_num)]
      omega
    omega
  obtain ⟨h2, _⟩ := verifyStep_zero_invariant size (min 100 ((size + 1048576 - 1) / 1048576))
    (List.range (min 100 ((size + 1048576 - 1) / 1048576))) (fun _ => 0) 0 (fun _ => rfl)
  simp only [DataVerifier.thoroughVerification]
  rw [h2]
  simp only [List.length_range, Nat.zero_add]
  have hne : ((min 100 ((size + 1048576 - 1) / 1048576) : ℕ) : ℚ) ≠ 0 :=
    Nat.cast_ne_zero.mpr (by omega)
  rw [div_self hne]
  have hdec : decide ((1 : ℚ) > 95/100) = true := by
    rw [decide_eq_true_eq]
    norm_num
  rw [hdec]

/-- Helper: thorough verification of a monotonically increasing device of
size between 1 KiB and the 1 MiB chunk size samples one chunk, finds zero
fraction 4/1024 < 0.1, judges it clean, and reports success with confidence
exactly 1. -/
theorem thorough_increasing_eval (size : Nat) (h1 : 1024 ≤ size) (h2 : size ≤ 1048576) :
    DataVerifier.thoroughVerification increasingFile size =
      { success := true, confidence := 1 } := by
  have hn : min 100 ((size + 1048576 - 1) / 1048576) = 1 := by omega
  have hb' : ∀ j, j < 1024 →
      (DataVerifier.verifyStep increasingFile size 1 (fun _ => 0, 0) 0).1 j = j % 256 := by
    intro j hj
    simp only [DataVerifier.verifyStep, increasingFile]
    norm_num
    intro hcon
    omega
  have hclean := isSectorClean_of_increasing hb'
  have hstep2 : (DataVerifier.verifyStep increasingFile size 1 (fun _ => 0, 0) 0).2 = 1 := by
    simp only [DataVerifier.verifyStep] at hclean ⊢
    rw [hclean]
    simp
  have hr : List.range 1 = [0] := rfl
  simp only [DataVerifier.thoroughVerification, hn, hr, List.foldl_cons, List.foldl_nil]
  rw [hstep2]
  norm_num

/-- C5 (amended): thorough verification of an all-zero device reports clean
fraction 1.0 and success; but on a device of monotonically increasing bytes
(any size from 1 KiB up to the 1 MiB chunk size) it ALSO reports success
with confidence 1.0 — each sampled window's zero fraction 4/1024 is below
0.1, which `isSectorClean` counts as clean — instead of the `success =
false` the claim states. -/
theorem thorough_zero_and_increasing :
    (∀ size : Nat, 1 ≤ size →
      DataVerifier.thoroughVerification zeroFile size =
        { success := true, confidence := 1 }) ∧
    (∀ size : Nat, 1024 ≤ size → size ≤ 1048576 →
      DataVerifier.thoroughVerification increasingFile size =
        { success := true, confidence := 1 }) :=
  ⟨thorough_zero_eval, thorough_increasing_eval⟩

/-- Witness for C5 at concrete sizes 4096 (zero device) and 2000
(increasing device). -/
theorem thorough_zero_and_increasing_witness :
    1 ≤ 4096 ∧ 1024 ≤ 2000 ∧ 2000 ≤ 1048576 ∧
    DataVerifier.thoroughVerification zeroFile 4096 =
      { success := true, confidence := 1 } ∧
    DataVerifier.thoroughVerification increasingFile 2000 =
      { success := true, confidence := 1 } :=
  ⟨by norm_num, by norm_num, by norm_num,
   thorough_zero_and_increasing.1 4096 (by norm_num),
   thorough_zero_and_increasing.2 2000 (by norm_num) (by norm_num)⟩

/-- C5 counterexample: on a 2048-byte device of monotonically increasing
byte values, thorough verification reports `success = true`, refuting the
claimed `success = false` for such a buffer. -/
theorem thorough_increasing_success_true :
    (DataVerifier.thoroughVerification increasingFile 2048).success = true := by
  rw [thorough_increasing_eval 2048 (by norm_num) (by norm_num)]

end TrueWipe
